import Mathlib

/-!
Verification of the Pong game core of this repository: the physics tick
(paddle input, ball velocity normalization, paddle bounce, scoring/reset),
the Technician NPC (trajectory prediction, wall-reflection unfolding,
utility-based technique planning, paddle movement), and the difficulty
configuration fallback.  Numeric values are embedded as rationals (the
source runs on JS doubles); trigonometric quantities are embedded over the
reals.
-/

namespace Pong

/-- Human paddle input step for one tick, from the tick update
(updateGameState, the paddle1/paddle2 key handling) and the identical
guarded pattern in the game loop input handling (startGameLoop): a
left key moves the paddle left by the constant paddle speed 8 only when the
guard 0 < x holds, then a right key moves it right by 8 only when the guard
x + width < canvasWidth holds on the (possibly already moved) position.
The move is guarded, not clamped. -/
def movePaddle (left right : Bool) (x width canvasWidth : ℚ) : ℚ :=
  let x1 := if left = true ∧ 0 < x then x - 8 else x
  if right = true ∧ x1 + width < canvasWidth then x1 + 8 else x1

/-- Speed multiplier as a function of the paddle-hit counter, from the
paddle collision branches of updateGameState:
speedMultiplier = min(1.0 + paddleHits * 0.15, 4.0). -/
def speedMultiplierOfHits (h : ℕ) : ℚ := min (1 + h * (3 / 20)) 4

/-- Paddle-hit bookkeeping on a paddle collision, from updateGameState:
increment the hit counter, then set the multiplier from the incremented
counter. -/
def paddleHitIncrement (paddleHits : ℕ) : ℕ × ℚ :=
  (paddleHits + 1, speedMultiplierOfHits (paddleHits + 1))

/-- Technician paddle movement step, from TechnicianNPC.moveTowards:
speed 7, dead-zone threshold 15 (return the current center unchanged when
the distance to the target is below it), an unreachable short-distance
branch (distance < 7 is impossible past the 15 check), then one step of
size 7 toward the target with the new center clamped to
[0, fieldWidth]. -/
def moveTowards (fieldWidth targetX currentX : ℚ) : ℚ :=
  if |targetX - currentX| < 15 then currentX
  else if |targetX - currentX| < 7 then targetX
  else max 0 (min fieldWidth (currentX + (if currentX < targetX then 1 else -1) * 7))

/-- C1 counterexample: a paddle at x = 3 (width 80, field 800) with the
left key held moves to x = -5, outside the claimed range
[0, fieldWidth - width]; the intended move is not clamped. -/
theorem c1_counterexample :
    movePaddle true false 3 80 800 = -5 ∧ ¬ (0 ≤ movePaddle true false 3 80 800) := by
  constructor <;> norm_num [movePaddle]

/-- C1 (amended): paddle movement is guarded rather than clamped: the
widened range (-8, canvasWidth - width + 8) is an inductive invariant of
the key-input movement step — every movement from a paddle x inside it,
including one from a position already protruding past a field edge,
lands back inside it — so after every key-input paddle movement the
paddle can protrude past either field edge by up to the paddle speed 8
but never further.  (The nominal range [0, canvasWidth - width] implies
the widened one, so the invariant also covers the first movement.) -/
theorem c1_paddle_bounds (left right : Bool) (x width canvasWidth : ℚ)
    (hx : -8 < x) (hxw : x + width < canvasWidth + 8) :
    -8 < movePaddle left right x width canvasWidth ∧
      movePaddle left right x width canvasWidth + width < canvasWidth + 8 := by
  simp only [movePaddle]
  by_cases h1 : left = true ∧ 0 < x
  · simp only [if_pos h1]
    by_cases h2 : right = true ∧ x - 8 + width < canvasWidth
    · rw [if_pos h2]
      constructor <;> linarith [h1.2]
    · rw [if_neg h2]
      constructor <;> linarith [h1.2]
  · simp only [if_neg h1]
    by_cases h2 : right = true ∧ x + width < canvasWidth
    · rw [if_pos h2]
      constructor <;> linarith [h2.2]
    · rw [if_neg h2]
      constructor <;> linarith

/-- C1 witness: the inductive bound evaluated at a concrete paddle state
already protruding past the left field edge. -/
theorem c1_paddle_bounds_witness :
    (-8 : ℚ) < -5 ∧ (-5 : ℚ) + 80 < 800 + 8 ∧
      (-8 < movePaddle true false (-5) 80 800 ∧
        movePaddle true false (-5) 80 800 + 80 < 800 + 8) :=
  ⟨by norm_num, by norm_num,
    c1_paddle_bounds true false (-5) 80 800 (by norm_num) (by norm_num)⟩

/-- C4: on a paddle hit the multiplier set equals min(1 + 0.15 h, 4.0) for
the incremented hit count h, and as a function of the hit count the
multiplier is monotonically non-decreasing and capped at 4.0. -/
theorem c4_speed_multiplier (h1 h2 : ℕ) (hle : h1 ≤ h2) :
    (paddleHitIncrement h1).2 = min (1 + ((h1 : ℚ) + 1) * (3 / 20)) 4 ∧
      speedMultiplierOfHits h1 ≤ speedMultiplierOfHits h2 ∧
      speedMultiplierOfHits h2 ≤ 4 := by
  refine ⟨?_, ?_, min_le_right _ _⟩
  · simp only [paddleHitIncrement, speedMultiplierOfHits]
    push_cast
    ring_nf
  · unfold speedMultiplierOfHits
    apply min_le_min _ le_rfl
    have hc : (h1 : ℚ) ≤ h2 := Nat.cast_le.mpr hle
    nlinarith

/-- C4 witness: the multiplier law evaluated at hit counts 2 ≤ 5. -/
theorem c4_speed_multiplier_witness :
    2 ≤ 5 ∧ ((paddleHitIncrement 2).2 = min (1 + ((2 : ℕ) + 1 : ℚ) * (3 / 20)) 4 ∧
      speedMultiplierOfHits 2 ≤ speedMultiplierOfHits 5 ∧
      speedMultiplierOfHits 5 ≤ 4) :=
  ⟨by norm_num, c4_speed_multiplier 2 5 (by norm_num)⟩

/-- C10: the Technician movement step keeps the paddle center inside
[0, fieldWidth] whenever the current center is inside it, and returns the
current center unchanged when the distance to the target is below the
15-unit dead zone. -/
theorem c10_move_towards_bounds (fieldWidth targetX currentX : ℚ)
    (h0 : 0 ≤ currentX) (h1 : currentX ≤ fieldWidth) :
    (0 ≤ moveTowards fieldWidth targetX currentX ∧
      moveTowards fieldWidth targetX currentX ≤ fieldWidth) ∧
      (|targetX - currentX| < 15 → moveTowards fieldWidth targetX currentX = currentX) := by
  unfold moveTowards
  split_ifs with hd hs hdir
  · exact ⟨⟨h0, h1⟩, fun _ => rfl⟩
  · exact absurd (lt_trans hs (by norm_num)) hd
  · exact ⟨⟨le_max_left _ _, max_le (le_trans h0 h1) (min_le_left _ _)⟩,
      fun hc => absurd hc hd⟩
  · exact ⟨⟨le_max_left _ _, max_le (le_trans h0 h1) (min_le_left _ _)⟩,
      fun hc => absurd hc hd⟩

/-- C10 witness: the movement-step bounds evaluated at a concrete state. -/
theorem c10_move_towards_bounds_witness :
    (0 : ℚ) ≤ 400 ∧ (400 : ℚ) ≤ 800 ∧
      ((0 ≤ moveTowards 800 410 400 ∧ moveTowards 800 410 400 ≤ 800) ∧
        (|(410 : ℚ) - 400| < 15 → moveTowards 800 410 400 = 400)) :=
  ⟨by norm_num, by norm_num,
    c10_move_towards_bounds 800 410 400 (by norm_num) (by norm_num)⟩

/-- One reflection of a projected x across the nearer field boundary,
the body of the wall-reflection while loop in predictBallArrivalX and
calculateStraightTarget: an x below 0 mirrors to -x, an x above
canvasWidth mirrors to 2 * canvasWidth - x. -/
def reflectStep (canvasWidth x : ℚ) : ℚ :=
  if x < 0 then -x else if canvasWidth < x then 2 * canvasWidth - x else x

/-- The wall-reflection unfolding while loop of predictBallArrivalX and
calculateStraightTarget (while futureX < 0 or futureX > canvasWidth,
mirror across the nearer boundary), embedded with an explicit fuel
parameter because the source loop carries no iteration bound; none
records that the loop is still running when the fuel runs out. -/
def unfoldReflect (canvasWidth : ℚ) : ℕ → ℚ → Option ℚ
  | 0, x => if x < 0 ∨ canvasWidth < x then none else some x
  | fuel + 1, x =>
    if x < 0 ∨ canvasWidth < x then unfoldReflect canvasWidth fuel (reflectStep canvasWidth x)
    else some x

/-- Ball state as read by the Technician predictor. -/
structure Ball where
  x : ℚ
  y : ℚ
  dx : ℚ
  dy : ℚ
deriving DecidableEq

/-- Technician return-success rate, from getReturnSuccessRate:
min(0.98, predictionAccuracy * courseAccuracy * 0.95). -/
def getReturnSuccessRate (predictionAccuracy courseAccuracy : ℚ) : ℚ :=
  min (49 / 50) (predictionAccuracy * courseAccuracy * (19 / 20))

/-- Post-reflection stage of predictBallArrivalX: when the new unfolded x
differs from the cached lastPredictedX by more than the 30-unit stability
threshold, inject the prediction error (r1 - 0.5) * (1 - accuracy) * 80
and, when the miss check r2 < missChance * 1.2 fires, a further
(r3 - 0.5) * 250 miss error, caching the perturbed value; otherwise reuse
the cached lastPredictedX.  The returned x is clamped to
[0, canvasWidth]; the second component is the updated lastPredictedX. -/
def applyPredictionError
    (canvasWidth predictionAccuracy courseAccuracy lastPredictedX r1 r2 r3 fx : ℚ) :
    ℚ × ℚ :=
  let error := (1 - predictionAccuracy) * 80
  if 30 < |fx - lastPredictedX| then
    let randomError := (r1 - 1 / 2) * error
    let missChance := 1 - getReturnSuccessRate predictionAccuracy courseAccuracy
    let predictedX :=
      if r2 < missChance * (6 / 5) then fx + randomError + (r3 - 1 / 2) * 250
      else fx + randomError
    (max 0 (min canvasWidth predictedX), predictedX)
  else (max 0 (min canvasWidth lastPredictedX), lastPredictedX)

/-- Trajectory predictor predictBallArrivalX of the Technician: return the
ball's current x when the ball is not moving toward the NPC paddle
(player 1 is hit when dy < 0, player 2 when dy > 0) or |dy| < 0.1; else
project futureX = x + dx * |(npcY - y) / dy|, unfold wall reflections,
and post-process with the prediction-error stage.  The draws r1 r2 r3 in
[0,1) stand for the three Math.random() calls; the result pairs the
returned x with the updated lastPredictedX field, and is none when the
reflection loop is still running after fuel iterations. -/
def predictBallArrivalX (fuel player : ℕ) (ball : Ball)
    (npcY canvasWidth predictionAccuracy courseAccuracy lastPredictedX r1 r2 r3 : ℚ) :
    Option (ℚ × ℚ) :=
  let ballMovingToNPC : Bool :=
    if player = 1 then decide (ball.dy < 0) else decide (0 < ball.dy)
  if ballMovingToNPC = false ∨ |ball.dy| < 1 / 10 then some (ball.x, lastPredictedX)
  else
    let timeToReach := |(npcY - ball.y) / ball.dy|
    let futureX := ball.x + ball.dx * timeToReach
    (unfoldReflect canvasWidth fuel futureX).map
      (applyPredictionError canvasWidth predictionAccuracy courseAccuracy lastPredictedX r1 r2 r3)

/-- At field width 0 the reflection loop flips a projected x forever
between 5 and -5 and never reaches the exit condition, for any fuel. -/
lemma unfoldReflect_zero_width (fuel : ℕ) :
    ∀ x : ℚ, x = 5 ∨ x = -5 → unfoldReflect 0 fuel x = none := by
  induction fuel with
  | zero =>
    intro x hx
    rcases hx with h | h <;> subst h <;> norm_num [unfoldReflect]
  | succ n ih =>
    intro x hx
    rcases hx with h | h <;> subst h
    · have hs : reflectStep 0 (5 : ℚ) = -5 := by norm_num [reflectStep]
      simp only [unfoldReflect, hs]
      rw [if_pos (by norm_num)]
      exact ih _ (Or.inr rfl)
    · have hs : reflectStep 0 (-5 : ℚ) = 5 := by norm_num [reflectStep]
      simp only [unfoldReflect, hs]
      rw [if_pos (by norm_num)]
      exact ih _ (Or.inl rfl)

/-- C2: the wall-reflection unfolding loop has no iteration cap in the
source.  With canvasWidth = 0 and a ball at x = 5, y = 0 moving toward the
player-2 paddle (dx = 0, dy = 1, paddle line npcY = 10), the projected x
alternates between 5 and -5, the loop exit condition never holds, and the
predictor diverges instead of stopping after a bound: for every iteration
allowance n the embedded loop is still running (the fueled embedding
returns none for all n). -/
theorem c2_unbounded_reflection_loop (n : ℕ) :
    predictBallArrivalX n 2 ⟨5, 0, 0, 1⟩ 10 0 (4 / 5) (7 / 10) 0 0 0 0 = none := by
  have harg : (5 : ℚ) + 0 * |((10 : ℚ) - 0) / 1| = 5 := by norm_num
  simp only [predictBallArrivalX, harg]
  rw [if_neg (by norm_num)]
  rw [unfoldReflect_zero_width n 5 (Or.inl rfl)]
  rfl

/-- C6 counterexample: with prediction accuracy 0.5 and draw r1 = 0.9
(miss check not fired by r2 = 0.9), the predictor for a ball at
(400, 0) falling straight down (dx = 0, dy = 1) toward the player-2
paddle line y = 380 in a field of width 800 with lastPredictedX = 0
returns 416, while the unfolded arrival x clamped to the field is 400:
the injected prediction error makes the result differ from the clamp of
the unfolded arrival x. -/
theorem c6_counterexample :
    predictBallArrivalX 1 2 ⟨400, 0, 0, 1⟩ 380 800 (1 / 2) 1 0 (9 / 10) (9 / 10) 0 =
      some (416, 416) ∧
      unfoldReflect 800 1 (400 + 0 * |((380 : ℚ) - 0) / 1|) = some 400 ∧
      (416 : ℚ) ≠ max 0 (min 800 400) := by
  refine ⟨?_, by norm_num [unfoldReflect], by norm_num⟩
  have harg : (400 : ℚ) + 0 * |((380 : ℚ) - 0) / 1| = 400 := by norm_num
  have hu : unfoldReflect 800 1 (400 : ℚ) = some 400 := by norm_num [unfoldReflect]
  simp only [predictBallArrivalX, harg, hu]
  rw [if_neg (by norm_num)]
  simp only [Option.map_some']
  have h30 : (30 : ℚ) < |(400 : ℚ) - 0| := by norm_num
  simp only [applyPredictionError, if_pos h30, getReturnSuccessRate]
  rw [if_neg (by norm_num)]
  norm_num

/-- C6 (amended): the predictor returns the ball's current x when the
ball is not moving toward the target paddle or |dy| < 0.1; otherwise,
whenever it returns, its result lies within the field bounds
[0, canvasWidth] — it is the clamp to [0, canvasWidth] of the unfolded
arrival x perturbed by the injected prediction error (or of the cached
previous prediction when the stability branch is taken), and it equals
the unfolded arrival x clamped to [0, canvasWidth] exactly when the error
draw is neutral (r1 = 1/2), the miss check does not fire, and the
stability branch is not taken. -/
theorem c6_predictor (fuel player : ℕ) (ball : Ball)
    (npcY canvasWidth predictionAccuracy courseAccuracy lastPredictedX r1 r2 r3 : ℚ)
    (hW : 0 < canvasWidth) :
    (((if player = 1 then decide (ball.dy < 0) else decide (0 < ball.dy)) = false ∨
        |ball.dy| < 1 / 10) →
      predictBallArrivalX fuel player ball npcY canvasWidth predictionAccuracy
        courseAccuracy lastPredictedX r1 r2 r3 = some (ball.x, lastPredictedX)) ∧
    (∀ v newLast,
      ¬ ((if player = 1 then decide (ball.dy < 0) else decide (0 < ball.dy)) = false ∨
          |ball.dy| < 1 / 10) →
      predictBallArrivalX fuel player ball npcY canvasWidth predictionAccuracy
        courseAccuracy lastPredictedX r1 r2 r3 = some (v, newLast) →
      0 ≤ v ∧ v ≤ canvasWidth) ∧
    (∀ fx,
      ¬ ((if player = 1 then decide (ball.dy < 0) else decide (0 < ball.dy)) = false ∨
          |ball.dy| < 1 / 10) →
      unfoldReflect canvasWidth fuel (ball.x + ball.dx * |(npcY - ball.y) / ball.dy|) =
        some fx →
      30 < |fx - lastPredictedX| → r1 = 1 / 2 →
      (1 - getReturnSuccessRate predictionAccuracy courseAccuracy) * (6 / 5) ≤ r2 →
      predictBallArrivalX fuel player ball npcY canvasWidth predictionAccuracy
        courseAccuracy lastPredictedX r1 r2 r3 = some (max 0 (min canvasWidth fx), fx)) := by
  refine ⟨fun h => ?_, fun v newLast h hp => ?_, fun fx h hu h30 hr1 hr2 => ?_⟩
  · simp only [predictBallArrivalX]
    rw [if_pos h]
  · have hb : ∀ w : ℚ, 0 ≤ max 0 (min canvasWidth w) ∧ max 0 (min canvasWidth w) ≤ canvasWidth :=
      fun w => ⟨le_max_left _ _, max_le hW.le (min_le_left _ _)⟩
    simp only [predictBallArrivalX] at hp
    rw [if_neg h] at hp
    cases hq : unfoldReflect canvasWidth fuel
        (ball.x + ball.dx * |(npcY - ball.y) / ball.dy|) with
    | none => rw [hq] at hp; exact absurd hp (by simp)
    | some fx =>
      rw [hq] at hp
      simp only [Option.map_some', Option.some.injEq] at hp
      simp only [applyPredictionError] at hp
      split_ifs at hp with hstab hmiss <;>
        ( rw [Prod.mk.injEq] at hp
          rw [← hp.1]
          exact hb _ )
  · simp only [predictBallArrivalX]
    rw [if_neg h, hu]
    simp only [Option.map_some', Option.some.injEq]
    simp only [applyPredictionError, if_pos h30]
    rw [if_neg (not_lt.mpr hr2), hr1]
    norm_num

/-- C6 witness: the amended predictor law evaluated at a concrete state
(the neutral-draw branch yields exactly the clamped unfolded x). -/
theorem c6_predictor_witness :
    (0 : ℚ) < 800 ∧
    ((((if (2 : ℕ) = 1 then decide ((1 : ℚ) < 0) else decide ((0 : ℚ) < 1)) = false ∨
        |(1 : ℚ)| < 1 / 10) →
      predictBallArrivalX 1 2 ⟨400, 0, 0, 1⟩ 380 800 1 1 0 (1 / 2) (9 / 10) 0 =
        some ((⟨400, 0, 0, 1⟩ : Ball).x, 0)) ∧
    (∀ v newLast,
      ¬ ((if (2 : ℕ) = 1 then decide ((1 : ℚ) < 0) else decide ((0 : ℚ) < 1)) = false ∨
          |(1 : ℚ)| < 1 / 10) →
      predictBallArrivalX 1 2 ⟨400, 0, 0, 1⟩ 380 800 1 1 0 (1 / 2) (9 / 10) 0 =
        some (v, newLast) →
      0 ≤ v ∧ v ≤ 800) ∧
    (∀ fx,
      ¬ ((if (2 : ℕ) = 1 then decide ((1 : ℚ) < 0) else decide ((0 : ℚ) < 1)) = false ∨
          |(1 : ℚ)| < 1 / 10) →
      unfoldReflect 800 1
          ((⟨400, 0, 0, 1⟩ : Ball).x +
            (⟨400, 0, 0, 1⟩ : Ball).dx * |((380 : ℚ) - (⟨400, 0, 0, 1⟩ : Ball).y) / 1|) =
        some fx →
      30 < |fx - 0| → (1 / 2 : ℚ) = 1 / 2 →
      (1 - getReturnSuccessRate 1 1) * (6 / 5) ≤ 9 / 10 →
      predictBallArrivalX 1 2 ⟨400, 0, 0, 1⟩ 380 800 1 1 0 (1 / 2) (9 / 10) 0 =
        some (max 0 (min 800 fx), fx))) :=
  ⟨by norm_num, c6_predictor 1 2 ⟨400, 0, 0, 1⟩ 380 800 1 1 0 (1 / 2) (9 / 10) 0 (by norm_num)⟩

/-- Per-tick ball velocity normalization from updateGameState: with the
current speed magnitude sqrt(dx^2 + dy^2) passed in as c (the nonnegative
square root, constrained by hypotheses at use sites),
speedFactor = min(speedMultiplier, MAX_BALL_SPEED / speed) with
MAX_BALL_SPEED = 12, and, when the current speed is positive, the velocity
rescaled to magnitude speed * speedFactor preserving direction. -/
def normalizeVelocity (dx dy c speed speedMultiplier : ℚ) : ℚ × ℚ :=
  if 0 < c then
    (dx / c * speed * min speedMultiplier (12 / speed),
     dy / c * speed * min speedMultiplier (12 / speed))
  else (dx, dy)

/-- C3 counterexample: ball velocity (3, 4) (magnitude 5), base speed 4,
multiplier 4: after normalization the squared magnitude is 144 (speed 12,
the MAX_BALL_SPEED cap), not (4 * 4)^2 = 256 as the claimed invariant
speed = baseSpeed * multiplier would give. -/
theorem c3_counterexample :
    ((5 : ℚ) ^ 2 = 3 ^ 2 + 4 ^ 2 ∧ (0 : ℚ) < 5) ∧
      (normalizeVelocity 3 4 5 4 4).1 ^ 2 + (normalizeVelocity 3 4 5 4 4).2 ^ 2 = 144 ∧
      ((4 : ℚ) * 4) ^ 2 = 256 ∧ (144 : ℚ) ≠ 256 := by
  norm_num [normalizeVelocity]

/-- C3 (amended): after the per-tick normalization step, for every ball
state with positive speed magnitude the new squared speed magnitude
equals min(baseSpeed * multiplier, MAX_BALL_SPEED)^2 with
MAX_BALL_SPEED = 12 — the instantaneous speed is baseSpeed * multiplier
capped at the maximum ball speed, not baseSpeed * multiplier
unconditionally. -/
theorem c3_speed_normalization (dx dy c speed speedMultiplier : ℚ)
    (hc2 : c ^ 2 = dx ^ 2 + dy ^ 2) (hc : 0 < c) (hs : 0 < speed) :
    (normalizeVelocity dx dy c speed speedMultiplier).1 ^ 2 +
      (normalizeVelocity dx dy c speed speedMultiplier).2 ^ 2 =
      min (speed * speedMultiplier) 12 ^ 2 := by
  have hcne : c ≠ 0 := ne_of_gt hc
  have hsne : speed ≠ 0 := ne_of_gt hs
  have hmin : speed * min speedMultiplier (12 / speed) = min (speed * speedMultiplier) 12 := by
    rcases le_total speedMultiplier (12 / speed) with hle | hle
    · have h12 : speed * speedMultiplier ≤ 12 := by
        rw [mul_comm]
        exact (le_div_iff₀ hs).mp hle
      rw [min_eq_left hle, min_eq_left h12]
    · have h12 : 12 ≤ speed * speedMultiplier := by
        rw [mul_comm]
        exact (div_le_iff₀ hs).mp hle
      rw [min_eq_right hle, min_eq_right h12]
      field_simp
  unfold normalizeVelocity
  rw [if_pos hc]
  dsimp only
  have key : (dx / c * speed * min speedMultiplier (12 / speed)) ^ 2 +
      (dy / c * speed * min speedMultiplier (12 / speed)) ^ 2 =
      (dx ^ 2 + dy ^ 2) * (speed * min speedMultiplier (12 / speed)) ^ 2 / c ^ 2 := by
    field_simp
    ring
  rw [key, ← hc2, hmin]
  field_simp

/-- C3 witness: the amended speed law evaluated at velocity (3, 4),
magnitude 5, base speed 4, multiplier 2 (uncapped case: new squared
magnitude (4 * 2)^2 = 64). -/
theorem c3_speed_normalization_witness :
    ((5 : ℚ) ^ 2 = 3 ^ 2 + 4 ^ 2 ∧ (0 : ℚ) < 5 ∧ (0 : ℚ) < 4) ∧
      (normalizeVelocity 3 4 5 4 2).1 ^ 2 + (normalizeVelocity 3 4 5 4 2).2 ^ 2 =
        min ((4 : ℚ) * 2) 12 ^ 2 :=
  ⟨⟨by norm_num, by norm_num, by norm_num⟩,
    c3_speed_normalization 3 4 5 4 2 (by norm_num) (by norm_num) (by norm_num)⟩

/-- Launch angle of a ball reset, from resetBall (and the identical
formula in initGameElements): angle = (Math.random() * 0.167 + 0.083) * PI,
returned here as the coefficient of PI; the angle is measured from the
vertical axis (the vertical velocity component is
speed * cos(angle) * direction). -/
def launchAngleFrac (r : ℚ) : ℚ := r * (167 / 1000) + 83 / 1000

/-- Ball state written by resetBall after a point: position, launch angle
(as a fraction of PI from vertical), the two random direction signs
(positive dy is downward), the reset speed multiplier and the reset
paddle-hit counter. -/
structure BallResetState where
  x : ℚ
  y : ℚ
  angleFrac : ℚ
  dirDown : Bool
  dirRight : Bool
  speedMultiplier : ℚ
  paddleHits : ℕ
deriving DecidableEq

/-- Ball reset after a point, from resetBall: ball recentered to
(canvasWidth / 2, canvasHeight / 2), fresh launch angle from draw r1,
vertical direction from the comparison r2 > 0.5 and horizontal direction
from r3 > 0.5, speed multiplier reset to 1.0, paddle-hit counter reset
to 0. -/
def resetBall (canvasWidth canvasHeight r1 r2 r3 : ℚ) : BallResetState :=
  { x := canvasWidth / 2, y := canvasHeight / 2,
    angleFrac := launchAngleFrac r1,
    dirDown := decide (1 / 2 < r2), dirRight := decide (1 / 2 < r3),
    speedMultiplier := 1, paddleHits := 0 }

/-- Scoring check of updateGameState: the ball's leading edge past the
top boundary (y - radius < 0) awards player 2; otherwise past the bottom
boundary (y + radius > canvasHeight) awards player 1 — in each case the
opponent of the paddle defending the crossed side (paddle 1 on top,
paddle 2 on bottom). -/
def scoreCheck (ballY radius canvasHeight : ℚ) : Option ℕ :=
  if ballY - radius < 0 then some 2
  else if canvasHeight < ballY + radius then some 1
  else none

/-- C8 counterexample: at the valid random draw r1 = 0 the launch angle
set by resetBall is 0.083 * PI radians = 14.94 degrees, strictly below
the claimed lower bound of 15 degrees (PI / 12 radians, coefficient
1 / 12). -/
theorem c8_counterexample :
    (0 : ℚ) ≤ 0 ∧ (0 : ℚ) < 1 ∧
      (resetBall 800 400 0 0 0).angleFrac < 1 / 12 := by
  norm_num [resetBall, launchAngleFrac]

/-- C8 (amended): when the ball's leading edge crosses the top boundary
player 2 is awarded the point (and symmetrically player 1 for the bottom
boundary), and resetBall recenters the ball to field center, resets the
speed multiplier to 1.0 and the paddle-hit counter to 0, with a random
launch angle from vertical lying in [0.083 * PI, 0.25 * PI) radians —
approximately [14.94, 45) degrees, not [15, 45] degrees — for every
random draw r1 in [0, 1). -/
theorem c8_score_and_reset (ballY radius canvasHeight canvasWidth r1 r2 r3 : ℚ)
    (h0 : 0 ≤ r1) (h1 : r1 < 1) :
    (ballY - radius < 0 → scoreCheck ballY radius canvasHeight = some 2) ∧
      (¬ (ballY - radius < 0) → canvasHeight < ballY + radius →
        scoreCheck ballY radius canvasHeight = some 1) ∧
      (resetBall canvasWidth canvasHeight r1 r2 r3).x = canvasWidth / 2 ∧
      (resetBall canvasWidth canvasHeight r1 r2 r3).y = canvasHeight / 2 ∧
      (resetBall canvasWidth canvasHeight r1 r2 r3).speedMultiplier = 1 ∧
      (resetBall canvasWidth canvasHeight r1 r2 r3).paddleHits = 0 ∧
      83 / 1000 ≤ (resetBall canvasWidth canvasHeight r1 r2 r3).angleFrac ∧
      (resetBall canvasWidth canvasHeight r1 r2 r3).angleFrac < 1 / 4 := by
  refine ⟨fun h => ?_, fun hn h => ?_, rfl, rfl, rfl, rfl, ?_, ?_⟩
  · unfold scoreCheck
    rw [if_pos h]
  · unfold scoreCheck
    rw [if_neg hn, if_pos h]
  · simp only [resetBall, launchAngleFrac]
    nlinarith
  · simp only [resetBall, launchAngleFrac]
    nlinarith

/-- C8 witness: the scoring and reset law evaluated at a concrete state
(ball past the top boundary, draw r1 = 1/2). -/
theorem c8_score_and_reset_witness :
    (0 : ℚ) ≤ 1 / 2 ∧ (1 / 2 : ℚ) < 1 ∧
      (((4 : ℚ) - 8 < 0 → scoreCheck 4 8 400 = some 2) ∧
        (¬ ((4 : ℚ) - 8 < 0) → (400 : ℚ) < 4 + 8 → scoreCheck 4 8 400 = some 1) ∧
        (resetBall 800 400 (1 / 2) 0 0).x = 800 / 2 ∧
        (resetBall 800 400 (1 / 2) 0 0).y = 400 / 2 ∧
        (resetBall 800 400 (1 / 2) 0 0).speedMultiplier = 1 ∧
        (resetBall 800 400 (1 / 2) 0 0).paddleHits = 0 ∧
        83 / 1000 ≤ (resetBall 800 400 (1 / 2) 0 0).angleFrac ∧
        (resetBall 800 400 (1 / 2) 0 0).angleFrac < 1 / 4) :=
  ⟨by norm_num, by norm_num,
    c8_score_and_reset 4 8 400 800 (1 / 2) 0 0 (by norm_num) (by norm_num)⟩

/-- JS falsy fallback x || d as applied by the TechnicianNPC constructor
to a possibly missing numeric config field: a missing (undefined) or zero
value falls back to the default d. -/
def jsOrDefault (v : Option ℚ) (d : ℚ) : ℚ :=
  match v with
  | none => d
  | some x => if x = 0 then d else x

/-- Difficulty settings held by the TechnicianNPC. -/
structure TechnicianDifficulty where
  reactionDelay : ℚ
  predictionAccuracy : ℚ
  courseAccuracy : ℚ
deriving DecidableEq

/-- Difficulty resolution of the TechnicianNPC constructor:
reactionDelay = config.reactionDelayMs || 150,
predictionAccuracy = config.technician?.predictionAccuracy || 0.85,
courseAccuracy = config.technician?.courseAccuracy || 0.85; the optional
technician object carries the two (possibly missing) accuracy fields. -/
def mkTechnicianDifficulty (reactionDelayMs : Option ℚ)
    (technician : Option (Option ℚ × Option ℚ)) : TechnicianDifficulty :=
  { reactionDelay := jsOrDefault reactionDelayMs 150,
    predictionAccuracy := jsOrDefault (technician.bind fun t => t.1) (17 / 20),
    courseAccuracy := jsOrDefault (technician.bind fun t => t.2) (17 / 20) }

/-- Normal-difficulty Technician values of DEFAULT_NPC_CONFIG in the NPC
manager types: reactionDelayMs 200, predictionAccuracy 0.8,
courseAccuracy 0.7. -/
def defaultNpcConfigTechnician : TechnicianDifficulty :=
  { reactionDelay := 200, predictionAccuracy := 4 / 5, courseAccuracy := 7 / 10 }

/-- C9 counterexample: with every difficulty field missing the
TechnicianNPC constructor resolves to (150 ms, 0.85, 0.85), not to the
DEFAULT_NPC_CONFIG / Normal values (200 ms, 0.8, 0.7) named by the
claim. -/
theorem c9_counterexample :
    mkTechnicianDifficulty none none = ⟨150, 17 / 20, 17 / 20⟩ ∧
      mkTechnicianDifficulty none none ≠ defaultNpcConfigTechnician := by
  refine ⟨rfl, fun hcontra => ?_⟩
  have h150 := congrArg TechnicianDifficulty.reactionDelay hcontra
  simp only [mkTechnicianDifficulty, jsOrDefault, defaultNpcConfigTechnician] at h150
  norm_num at h150

/-- C9 (amended): for every configuration in which a difficulty field is
missing or zero, the TechnicianNPC constructor falls back per field to
its hard-coded defaults — reaction delay 150 ms, prediction accuracy
0.85, course accuracy 0.85 — rather than failing (the resolution is a
total function); the fallbacks are not the DEFAULT_NPC_CONFIG Normal
values (200 ms, 0.8, 0.7). -/
theorem c9_constructor_fallback (reactionDelayMs : Option ℚ)
    (technician : Option (Option ℚ × Option ℚ)) :
    ((reactionDelayMs = none ∨ reactionDelayMs = some 0) →
      (mkTechnicianDifficulty reactionDelayMs technician).reactionDelay = 150) ∧
      ((technician.bind (fun t => t.1) = none ∨ technician.bind (fun t => t.1) = some 0) →
        (mkTechnicianDifficulty reactionDelayMs technician).predictionAccuracy = 17 / 20) ∧
      ((technician.bind (fun t => t.2) = none ∨ technician.bind (fun t => t.2) = some 0) →
        (mkTechnicianDifficulty reactionDelayMs technician).courseAccuracy = 17 / 20) := by
  have key : ∀ (v : Option ℚ) (d : ℚ), v = none ∨ v = some 0 → jsOrDefault v d = d := by
    intro v d hv
    rcases hv with h | h <;> subst h <;> simp [jsOrDefault]
  unfold mkTechnicianDifficulty
  exact ⟨fun hr => key _ _ hr, fun hp => key _ _ hp, fun hca => key _ _ hca⟩

/-- C9 witness: the per-field fallback evaluated at a configuration in
which only the reaction delay is missing (the two accuracy fields are
present) and at a wholly missing technician object. -/
theorem c9_constructor_fallback_witness :
    ((none : Option ℚ) = none ∨ (none : Option ℚ) = some 0) ∧
      (mkTechnicianDifficulty none (some (some (9 / 10), some (3 / 5)))).reactionDelay = 150 ∧
      (mkTechnicianDifficulty (some 200) none).predictionAccuracy = 17 / 20 ∧
      (mkTechnicianDifficulty (some 200) none).courseAccuracy = 17 / 20 :=
  ⟨Or.inl rfl,
    (c9_constructor_fallback none (some (some (9 / 10), some (3 / 5)))).1 (Or.inl rfl),
    (c9_constructor_fallback (some 200) none).2.1 (Or.inl rfl),
    (c9_constructor_fallback (some 200) none).2.2 (Or.inl rfl)⟩

/-- New ball velocity on a top-paddle (paddle 1) hit, from
updateGameState: angle = hitPosition * (PI / 3), dx = sin(angle) * speed,
dy = cos(angle) * speed, then dy is flipped whenever it is negative so
the ball leaves downward (positive y), away from the top paddle. -/
noncomputable def paddle1Bounce (hitPosition speed : ℝ) : ℝ × ℝ :=
  (Real.sin (hitPosition * (Real.pi / 3)) * speed,
   if Real.cos (hitPosition * (Real.pi / 3)) * speed < 0 then
     -(Real.cos (hitPosition * (Real.pi / 3)) * speed)
   else Real.cos (hitPosition * (Real.pi / 3)) * speed)

/-- New ball velocity on a bottom-paddle (paddle 2) hit, from
updateGameState: angle = hitPosition * (PI / 3),
dx = sin(PI - angle) * speed, dy = cos(PI - angle) * speed, then dy is
flipped whenever it is positive so the ball leaves upward (negative y),
away from the bottom paddle. -/
noncomputable def paddle2Bounce (hitPosition speed : ℝ) : ℝ × ℝ :=
  (Real.sin (Real.pi - hitPosition * (Real.pi / 3)) * speed,
   if 0 < Real.cos (Real.pi - hitPosition * (Real.pi / 3)) * speed then
     -(Real.cos (Real.pi - hitPosition * (Real.pi / 3)) * speed)
   else Real.cos (Real.pi - hitPosition * (Real.pi / 3)) * speed)

/-- C5: for every hit position p in [-1, 1] and positive speed, the new
velocity after a paddle hit realizes the reflection angle p * 60 degrees
from vertical — dx = sin(p * PI/3) * speed and the vertical component has
magnitude cos(p * PI/3) * speed — and the vertical component points away
from the hitting paddle: strictly downward (positive) off the top
paddle and strictly upward (negative) off the bottom paddle. -/
theorem c5_paddle_reflection (p s : ℝ) (hp1 : -1 ≤ p) (hp2 : p ≤ 1) (hs : 0 < s) :
    (paddle1Bounce p s).1 = Real.sin (p * (Real.pi / 3)) * s ∧
      (paddle1Bounce p s).2 = Real.cos (p * (Real.pi / 3)) * s ∧
      0 < (paddle1Bounce p s).2 ∧
      (paddle2Bounce p s).1 = Real.sin (p * (Real.pi / 3)) * s ∧
      (paddle2Bounce p s).2 = -(Real.cos (p * (Real.pi / 3)) * s) ∧
      (paddle2Bounce p s).2 < 0 := by
  have hpi := Real.pi_pos
  have hcos : 0 < Real.cos (p * (Real.pi / 3)) := by
    apply Real.cos_pos_of_mem_Ioo
    constructor
    · nlinarith [mul_nonneg (by linarith : (0 : ℝ) ≤ p + 1) (by linarith : (0 : ℝ) ≤ Real.pi / 3)]
    · nlinarith [mul_nonneg (by linarith : (0 : ℝ) ≤ 1 - p) (by linarith : (0 : ℝ) ≤ Real.pi / 3)]
  have hdy : 0 < Real.cos (p * (Real.pi / 3)) * s := mul_pos hcos hs
  have hc2 : Real.cos (Real.pi - p * (Real.pi / 3)) = -Real.cos (p * (Real.pi / 3)) :=
    Real.cos_pi_sub _
  have h1 : ¬ Real.cos (p * (Real.pi / 3)) * s < 0 := not_lt.mpr hdy.le
  have h2 : ¬ 0 < Real.cos (Real.pi - p * (Real.pi / 3)) * s := by
    rw [hc2]
    nlinarith
  unfold paddle1Bounce paddle2Bounce
  rw [if_neg h1, if_neg h2]
  refine ⟨rfl, rfl, hdy, ?_, ?_, ?_⟩
  · dsimp only
    rw [Real.sin_pi_sub]
  · dsimp only
    rw [hc2]
    ring
  · dsimp only
    rw [hc2]
    nlinarith

/-- C5 witness: the reflection law evaluated at hit position 0 and
speed 4. -/
theorem c5_paddle_reflection_witness :
    ((-1 : ℝ) ≤ 0 ∧ (0 : ℝ) ≤ 1 ∧ (0 : ℝ) < 4) ∧
      ((paddle1Bounce 0 4).1 = Real.sin (0 * (Real.pi / 3)) * 4 ∧
        (paddle1Bounce 0 4).2 = Real.cos (0 * (Real.pi / 3)) * 4 ∧
        0 < (paddle1Bounce 0 4).2 ∧
        (paddle2Bounce 0 4).1 = Real.sin (0 * (Real.pi / 3)) * 4 ∧
        (paddle2Bounce 0 4).2 = -(Real.cos (0 * (Real.pi / 3)) * 4) ∧
        (paddle2Bounce 0 4).2 < 0) :=
  ⟨⟨by norm_num, by norm_num, by norm_num⟩,
    c5_paddle_reflection 0 4 (by norm_num) (by norm_num) (by norm_num)⟩

/-- The four shot techniques of the Technician. -/
inductive Technique
  | course
  | straight
  | bounce
  | doubleBounce
deriving DecidableEq

/-- A candidate action of the Technician planner: technique tag, target
x-coordinate and utility score. -/
structure Action where
  technique : Technique
  targetPosition : ℚ
  utility : ℚ
deriving DecidableEq

/-- Occurrences of a technique in the rolling history, from
applyDiversityPenalty (recentUsage). -/
def recentUsageCount (techniqueHistory : List Technique) (technique : Technique) : ℕ :=
  (techniqueHistory.filter fun t => decide (t = technique)).length

/-- Penalty multiplier of applyDiversityPenalty: 1.0 initially, forced to
0.0 when the technique equals the immediately previous one, and otherwise
(the multiplier still being positive) scaled by
max(0.5, 1 - recentUsage * 0.2) when the technique occurs in the
history. -/
def diversityMultiplier (lastTechnique : Option Technique)
    (techniqueHistory : List Technique) (technique : Technique) : ℚ :=
  if lastTechnique = some technique then 0
  else if 0 < recentUsageCount techniqueHistory technique then
    max (1 / 2) (1 - recentUsageCount techniqueHistory technique * (1 / 5))
  else 1

/-- Diversity penalty pass of applyDiversityPenalty: each action keeps
its technique and target and has its utility multiplied by the penalty
multiplier. -/
def applyDiversityPenalty (lastTechnique : Option Technique)
    (techniqueHistory : List Technique) (actions : List Action) : List Action :=
  actions.map fun action =>
    { action with
        utility := action.utility *
          diversityMultiplier lastTechnique techniqueHistory action.technique }

/-- Candidate generation of generatePossibleActions: one action per
technique, in source order, each targeting the predicted ball arrival x;
the four utilities (whose source computation adds random jitter) enter as
parameters. -/
def generatePossibleActions (ballArrivalX uCourse uStraight uBounce uDouble : ℚ) :
    List Action :=
  [⟨Technique.course, ballArrivalX, uCourse⟩,
   ⟨Technique.straight, ballArrivalX, uStraight⟩,
   ⟨Technique.bounce, ballArrivalX, uBounce⟩,
   ⟨Technique.doubleBounce, ballArrivalX, uDouble⟩]

/-- JS Array.reduce with the first element as the initial accumulator and
the comparator of planAction: a strictly greater utility replaces the
best so far. -/
def reduceBest (first : Action) (rest : List Action) : Action :=
  rest.foldl (fun best current => if best.utility < current.utility then current else best) first

/-- JS Array.reduce on a possibly empty array: none models the TypeError
a reduce of an empty array without initial value would throw. -/
def reduceList : List Action → Option Action
  | [] => none
  | c :: rest => some (reduceBest c rest)

/-- Technique selection of planAction: apply the diversity penalty; when
some penalized action keeps utility > 0, reduce those to the best;
otherwise reduce the original candidates excluding the immediately
previous technique. -/
def planChoose (lastTechnique : Option Technique) (techniqueHistory : List Technique)
    (actions : List Action) : Option Action :=
  if ((applyDiversityPenalty lastTechnique techniqueHistory actions).filter
      fun a => decide (0 < a.utility)) = [] then
    reduceList (actions.filter fun a => decide (¬ some a.technique = lastTechnique))
  else
    reduceList ((applyDiversityPenalty lastTechnique techniqueHistory actions).filter
      fun a => decide (0 < a.utility))

/-- The reduce of planAction returns one of the reduced candidates. -/
lemma reduceBest_mem (first : Action) (rest : List Action) :
    reduceBest first rest ∈ first :: rest := by
  induction rest generalizing first with
  | nil => simp [reduceBest]
  | cons x xs ih =>
    have h := ih (if first.utility < x.utility then x else first)
    rw [reduceBest, List.foldl_cons]
    rw [reduceBest] at h
    rcases List.mem_cons.mp h with h1 | h1
    · rw [h1]
      split_ifs
      · exact List.mem_cons_of_mem _ (List.mem_cons_self _ _)
      · exact List.mem_cons_self _ _
    · exact List.mem_cons_of_mem _ (List.mem_cons_of_mem _ h1)

/-- A successful reduce returns a member of the list. -/
lemma reduceList_mem (l : List Action) (a : Action) (h : reduceList l = some a) :
    a ∈ l := by
  cases l with
  | nil => exact absurd h (by simp [reduceList])
  | cons c rest =>
    simp only [reduceList, Option.some.injEq] at h
    rw [← h]
    exact reduceBest_mem c rest

/-- The previous technique's penalty multiplier is zero. -/
lemma diversityMultiplier_last (t : Technique) (hist : List Technique) :
    diversityMultiplier (some t) hist t = 0 := by
  unfold diversityMultiplier
  rw [if_pos rfl]

/-- Every penalized action that keeps positive utility carries a
technique different from the immediately previous one. -/
lemma valid_mem_ne_last (t : Technique) (hist : List Technique) (actions : List Action)
    (a : Action)
    (ha : a ∈ (applyDiversityPenalty (some t) hist actions).filter
      fun b => decide (0 < b.utility)) :
    a.technique ≠ t := by
  rcases List.mem_filter.mp ha with ⟨hmem, hposb⟩
  have hpos : 0 < a.utility := of_decide_eq_true hposb
  rcases List.mem_map.mp hmem with ⟨b, hb, hba⟩
  subst hba
  dsimp only at hpos ⊢
  intro hcontra
  rw [hcontra, diversityMultiplier_last, mul_zero] at hpos
  exact lt_irrefl 0 hpos

/-- Every fallback candidate carries a technique different from the
immediately previous one. -/
lemma fallback_mem_ne_last (t : Technique) (actions : List Action) (a : Action)
    (ha : a ∈ actions.filter fun b => decide (¬ some b.technique = some t)) :
    a.technique ≠ t := by
  rcases List.mem_filter.mp ha with ⟨hmem, hcond⟩
  have hne := of_decide_eq_true hcond
  exact fun hc => hne (by rw [hc])

/-- C7: a planning pass of the Technician never selects the technique
chosen by the immediately previous pass: the previous technique's
utility is forced to zero by the diversity penalty, the winner is
selected among actions with utility > 0, and the fallback (when no
action keeps positive utility) reduces only candidates excluding the
immediately previous technique.  This holds for every predicted arrival
x, all four candidate utilities (whatever their random jitter) and every
technique history. -/
theorem c7_no_consecutive_repeat (ballArrivalX uCourse uStraight uBounce uDouble : ℚ)
    (techniqueHistory : List Technique) (t : Technique) (chosen : Action)
    (hplan : planChoose (some t) techniqueHistory
        (generatePossibleActions ballArrivalX uCourse uStraight uBounce uDouble) =
      some chosen) :
    chosen.technique ≠ t := by
  unfold planChoose at hplan
  split_ifs at hplan with hempty
  · exact fallback_mem_ne_last t _ chosen (reduceList_mem _ _ hplan)
  · exact valid_mem_ne_last t techniqueHistory _ chosen (reduceList_mem _ _ hplan)

/-- C7 witness: a planning pass with previous technique Course and equal
base utilities selects Straight. -/
theorem c7_no_consecutive_repeat_witness :
    planChoose (some Technique.course) [] (generatePossibleActions 0 1 1 1 1) =
      some ⟨Technique.straight, 0, 1⟩ ∧
      (⟨Technique.straight, 0, 1⟩ : Action).technique ≠ Technique.course :=
  ⟨by simp [planChoose, applyDiversityPenalty, generatePossibleActions,
      diversityMultiplier, recentUsageCount, reduceList, reduceBest],
    c7_no_consecutive_repeat 0 1 1 1 1 [] Technique.course _
      (by simp [planChoose, applyDiversityPenalty, generatePossibleActions,
        diversityMultiplier, recentUsageCount, reduceList, reduceBest])⟩

end Pong
